import Mathlib

/-!
Verification of the Mudrex trading SDK client library.

This file gives a shallow embedding, in Lean 4, of the data-normalization,
pagination, quantity-math, order-construction and error-mapping logic of the
SDK, translated from the Python sources (mudrex/utils.py, mudrex/models.py,
mudrex/exceptions.py, mudrex/api/orders.py, mudrex/api/fees.py,
mudrex/api/positions.py), together with theorems settling the specification
claims about that logic.

Numeric values are modelled as exact rationals; Python dictionaries are
modelled as association lists of JSON-like values; Python exceptions are
modelled with Option and Except.
-/

set_option maxRecDepth 8000

namespace Mudrex

/-- A JSON-like Python value, as found in API response payloads: strings,
numbers, booleans, None, dictionaries and lists. Numbers are modelled as
exact rationals. -/
inductive JVal where
  | jstr (s : String)
  | jnum (q : ℚ)
  | jbool (b : Bool)
  | jnull
  | jobj (fields : List (String × JVal))
  | jarr (elems : List JVal)

/-- Python truthiness of a value: None, empty string, zero, False, and empty
containers are falsy; everything else (including the string "0") is truthy. -/
def JVal.truthy : JVal → Bool
  | .jstr s => s ≠ ""
  | .jnum q => q ≠ 0
  | .jbool b => b
  | .jnull => false
  | .jobj fields => !fields.isEmpty
  | .jarr elems => !elems.isEmpty

/-- Rendering of a rational as Python renders the corresponding number:
integers print without a decimal point (payload numbers that matter to the
claims are integers; the fractional case is rendered as num/den and is not
relied on by any theorem). -/
def ratStr (q : ℚ) : String :=
  if q.den = 1 then toString q.num else toString q.num ++ "/" ++ toString q.den

/-- Python str() applied to a payload value (the container cases render
placeholders; no claim depends on them). -/
def JVal.pyStr : JVal → String
  | .jstr s => s
  | .jnum q => ratStr q
  | .jbool b => if b then "True" else "False"
  | .jnull => "None"
  | .jobj _ => "<dict>"
  | .jarr _ => "<list>"

/-- Python dict.get(key): the value stored under the first occurrence of the
key, if any. Payload dictionaries are modelled as association lists with the
convention that keys are distinct. -/
def dget (data : List (String × JVal)) (key : String) : Option JVal :=
  match data with
  | [] => none
  | (k, v) :: rest => if k = key then some v else dget rest key

/-- Python dict.get(key, default): the stored value when the key is present
(even when that value is None), the default otherwise. -/
def dgetD (data : List (String × JVal)) (key : String) (dflt : JVal) : JVal :=
  match dget data key with
  | some v => v
  | none => dflt

/-- Python x or y on payload values: x when x is truthy, else y. -/
def pyOrV (a b : JVal) : JVal :=
  if a.truthy then a else b

/-- Translation of normalize_quantity from mudrex/utils.py: str applied to
the chain data.get("quantity") or data.get("size") or "0", where a missing
key yields None. -/
def normalize_quantity (data : List (String × JVal)) : String :=
  (pyOrV (pyOrV (dgetD data "quantity" .jnull) (dgetD data "size" .jnull)) (.jstr "0")).pyStr

/-- Translation of normalize_mark_price from mudrex/utils.py: the same
pattern over mark_price and market_price. -/
def normalize_mark_price (data : List (String × JVal)) : String :=
  (pyOrV (pyOrV (dgetD data "mark_price" .jnull) (dgetD data "market_price" .jnull)) (.jstr "0")).pyStr

/-- The floor of a rational, computed on the numerator and denominator so
that concrete instances evaluate. -/
def ratFloor (x : ℚ) : ℤ :=
  x.num / x.den

/-- Python round(x) over exact rationals: the nearest integer, with ties
going to the even integer. -/
def roundHalfEven (x : ℚ) : ℤ :=
  if x - ratFloor x < 1/2 then ratFloor x
  else if 1/2 < x - ratFloor x then ratFloor x + 1
  else if ratFloor x % 2 = 0 then ratFloor x else ratFloor x + 1

/-- Python round(x, p) over exact rationals: rounding to p decimal places. -/
def pyRoundTo (x : ℚ) (p : ℕ) : ℚ :=
  (roundHalfEven (x * 10 ^ p) : ℚ) / 10 ^ p

/-- Python float division: a zero divisor raises ZeroDivisionError,
modelled as none. -/
def pyDiv (a b : ℚ) : Option ℚ :=
  if b = 0 then none else some (a / b)

/-- Fuel-bounded digit counter for natural numbers. -/
def natDigitsGo : ℕ → ℕ → ℕ
  | 0, _ => 0
  | fuel + 1, n => if n = 0 then 0 else natDigitsGo fuel (n / 10) + 1

/-- Number of digits in the decimal form of a natural number (one digit
for 0; the fuel of 60 covers every number below 10 to the 60). -/
def natDigits (n : ℕ) : ℕ :=
  if n = 0 then 1 else natDigitsGo 60 n

/-- Fuel-bounded counter of trailing decimal zeros. -/
def trailingZerosGo : ℕ → ℕ → ℕ
  | 0, _ => 0
  | fuel + 1, n => if n ≠ 0 ∧ n % 10 = 0 then trailingZerosGo fuel (n / 10) + 1 else 0

/-- Number of trailing decimal zeros of a natural number. -/
def trailingZeros (n : ℕ) : ℕ :=
  trailingZerosGo 60 n

/-- Least number of digits after the decimal point that writes the step
exactly (0 for integer values), searching expansions of up to 40 digits;
41 when no expansion fits, in which case decExact is false and no theorem
of this file applies. -/
def leastDecDigits (step : ℚ) : ℕ :=
  match (List.range 41).find? (fun p => (step * 10 ^ p).den = 1) with
  | some p => p
  | none => 41

/-- The decimal significand of the step: its absolute value scaled to an
integer by its least decimal length. -/
def stepScaled (step : ℚ) : ℕ :=
  (|step| * 10 ^ leastDecDigits step).num.toNat

/-- Number of characters after the last decimal point in the Python str()
form of the step, as the source computes its rounding precision:
len(str(step).split(".")[-1]) if "." in str(step) else 0.
For 0.0001 <= |step| < 1e16, Python prints fixed notation with at least
one fractional digit, so the count is the length of the shortest decimal
expansion, and at least 1 (as in str(1.0) = 1.0). Outside that range
Python prints scientific notation: a one-digit significand, as in 1e-05,
has no decimal point at all, so the source computes precision 0; a longer
significand, as in 2.5e-05, puts after its point the significand fraction
followed by the exponent suffix (the letter e, a sign, and the exponent
padded to at least two digits), as in 5e-05 of length 5. Faithful for the
values the source can hold, namely rationals equal to the shortest
decimal form of a double (decExact). -/
def decPrecision (step : ℚ) : ℕ :=
  if step = 0 then 1
  else if 1/10000 ≤ |step| ∧ |step| < 10 ^ 16 then
    max (leastDecDigits step) 1
  else
    let d := natDigits (stepScaled step) - trailingZeros (stepScaled step)
    if d ≤ 1 then 0
    else
      let e : ℤ := (natDigits (stepScaled step) : ℤ) - 1 - (leastDecDigits step : ℤ)
      (d - 1) + (2 + max 2 (natDigits e.natAbs))

/-- The step has a finite decimal expansion of at most 40 digits, so that
decPrecision really is the digit count of its printed form. -/
def decExact (step : ℚ) : Bool :=
  ((List.range 41).find? (fun p => (step * 10 ^ p).den = 1)).isSome

/-- Translation of calculate_order_from_usd from mudrex/utils.py over exact
rationals: raw = usd/price is rounded to the nearest multiple of the step
and then to the decimal precision of the printed step; the result pairs the
rounded quantity with its notional value. none models a ZeroDivisionError
(the code divides by the step unconditionally). -/
def calculate_order_from_usd (usd_amount price quantity_step : ℚ) :
    Option (ℚ × ℚ) := do
  let raw_quantity ← pyDiv usd_amount price
  let q ← pyDiv raw_quantity quantity_step
  let rounded := (roundHalfEven q : ℚ) * quantity_step
  let rounded2 := pyRoundTo rounded (decPrecision quantity_step)
  some (rounded2, rounded2 * price)

/-- Python float modulo for a nonzero divisor, in exact arithmetic: the
remainder x - y * floor(x/y), which carries the sign of the divisor. -/
def pyFloatMod (x y : ℚ) : ℚ :=
  x - y * ratFloor (x / y)

/-- Translation of validate_quantity from mudrex/utils.py: true when the
step is zero, else true when the absolute remainder of quantity modulo step
is below one percent of the step. -/
def validate_quantity (quantity quantity_step : ℚ) : Bool :=
  if quantity_step = 0 then true
  else |pyFloatMod quantity quantity_step| < quantity_step * (1/100)

/-- The IEEE-754 double nearest to 0.3, as an exact rational: the value the
source actually holds when a caller writes the literal 0.3. -/
def float03 : ℚ := 5404319552844595 / 2 ^ 54

/-- The IEEE-754 double nearest to 0.1, as an exact rational: the value the
source actually holds when a caller writes the literal 0.1. -/
def float01 : ℚ := 3602879701896397 / 2 ^ 55

/-- Python truthiness test `if limit` for the optional integer limit
argument of the history fetchers: None and 0 are falsy. -/
def limitTruthy : Option ℤ → Bool
  | none => false
  | some n => n ≠ 0

/-- The integer carried by a limit argument (only read when it is truthy). -/
def limitVal : Option ℤ → ℤ
  | none => 0
  | some n => n

/-- The combined test `limit and len(acc) >= limit` of the history loops. -/
def limitReached (limit : Option ℤ) (count : ℕ) : Bool :=
  limitTruthy limit && decide (limitVal limit ≤ (count : ℤ))

/-- Python list slicing l[:n] for an integer bound: a nonnegative bound
takes a prefix, a negative bound drops elements from the end. -/
def pySlice {β : Type} (l : List β) (n : ℤ) : List β :=
  if 0 ≤ n then l.take n.toNat else l.take ((l.length : ℤ) + n).toNat

/-- Translation of the while-loop shared verbatim by OrdersAPI.get_history
(mudrex/api/orders.py) and PositionsAPI.get_history
(mudrex/api/positions.py): request page number `page` (fetch returns the
raw items of a page; conv is Order.from_dict resp. Position.from_dict),
stop on an empty page, extend the accumulator with the converted items,
return the truncated accumulator once a truthy limit is reached, stop when
the raw page is shorter than per_page, else continue with the next page.
The fuel argument bounds the number of iterations (none models a loop that
has not finished within the fuel); the second component of a result is the
number of the last page requested. -/
def get_history_go {α β : Type} (fetch : ℕ → List α) (conv : α → β)
    (limit : Option ℤ) (per_page : ℕ) :
    ℕ → ℕ → List β → Option (List β × ℕ)
  | 0, _, _ => none
  | fuel + 1, page, acc =>
    let items := fetch page
    if items.length = 0 then some (acc, page)
    else
      let acc2 := acc ++ items.map conv
      if limitReached limit acc2.length then some (pySlice acc2 (limitVal limit), page)
      else if items.length < per_page then some (acc2, page)
      else get_history_go fetch conv limit per_page fuel (page + 1) acc2

/-- OrdersAPI.get_history and PositionsAPI.get_history: drain pages of size
100 starting from page 1 with an empty accumulator. -/
def get_history {α β : Type} (fetch : ℕ → List α) (conv : α → β)
    (limit : Option ℤ) (fuel : ℕ) : Option (List β × ℕ) :=
  get_history_go fetch conv limit 100 fuel 1 []

/-- Translation of the loop of FeesAPI.get_history (mudrex/api/fees.py):
the same pagination loop, with an optional symbol filter applied to the
converted records of each page before they are accumulated (sym_match models
the predicate f.symbol == symbol or f.asset_id == symbol); the short-page
test still uses the raw page length. -/
def fees_get_history_go {α β : Type} (fetch : ℕ → List α) (conv : α → β)
    (symbol : Option String) (sym_match : β → String → Bool)
    (limit : Option ℤ) (per_page : ℕ) :
    ℕ → ℕ → List β → Option (List β × ℕ)
  | 0, _, _ => none
  | fuel + 1, page, acc =>
    let items := fetch page
    if items.length = 0 then some (acc, page)
    else
      let fees := items.map conv
      let fees2 := match symbol with
        | some s => if s ≠ "" then fees.filter (fun f => sym_match f s) else fees
        | none => fees
      let acc2 := acc ++ fees2
      if limitReached limit acc2.length then some (pySlice acc2 (limitVal limit), page)
      else if items.length < per_page then some (acc2, page)
      else fees_get_history_go fetch conv symbol sym_match limit per_page fuel (page + 1) acc2

/-- FeesAPI.get_history: drain fee pages of size 100 starting from page 1
with an empty accumulator. -/
def fees_get_history {α β : Type} (fetch : ℕ → List α) (conv : α → β)
    (symbol : Option String) (sym_match : β → String → Bool)
    (limit : Option ℤ) (fuel : ℕ) : Option (List β × ℕ) :=
  fees_get_history_go fetch conv symbol sym_match limit 100 fuel 1 []

/-- A concrete three-page feed: two full pages of 100 items and a third
page of 37 items, nothing afterwards. -/
def fetchEx : ℕ → List ℕ :=
  fun p =>
    if p = 1 then List.range 100
    else if p = 2 then List.range 100
    else if p = 3 then List.range 37
    else []

/-- Concatenation of the converted items of k consecutive pages starting at
the given page number. -/
def pagesJoin {α β : Type} (fetch : ℕ → List α) (conv : α → β) : ℕ → ℕ → List β
  | _, 0 => []
  | page, k + 1 => (fetch page).map conv ++ pagesJoin fetch conv (page + 1) k

/-- The closed set of exception kinds of mudrex/exceptions.py. apiError is
the generic catch-all base kind. -/
inductive ExcKind where
  | apiError
  | authenticationError
  | rateLimitError
  | validationError
  | notFoundError
  | conflictError
  | serverError
  | insufficientBalanceError
  | orderError
  | positionError
deriving DecidableEq

/-- Lookup of a key in an association list with string keys, as dict.get. -/
def lookupAssoc {γ : Type} (l : List (String × γ)) (key : String) : Option γ :=
  match l with
  | [] => none
  | (k, v) :: rest => if k = key then some v else lookupAssoc rest key

/-- Translation of ERROR_CODE_MAP from mudrex/exceptions.py. -/
def ERROR_CODE_MAP : List (String × ExcKind) :=
  [("UNAUTHORIZED", .authenticationError),
   ("FORBIDDEN", .authenticationError),
   ("INVALID_API_KEY", .authenticationError),
   ("API_KEY_EXPIRED", .authenticationError),
   ("RATE_LIMIT_EXCEEDED", .rateLimitError),
   ("TOO_MANY_REQUESTS", .rateLimitError),
   ("INVALID_REQUEST", .validationError),
   ("VALIDATION_ERROR", .validationError),
   ("BAD_REQUEST", .validationError),
   ("INVALID_PARAMETER", .validationError),
   ("NOT_FOUND", .notFoundError),
   ("ASSET_NOT_FOUND", .notFoundError),
   ("ORDER_NOT_FOUND", .notFoundError),
   ("POSITION_NOT_FOUND", .notFoundError),
   ("CONFLICT", .conflictError),
   ("DUPLICATE", .conflictError),
   ("SERVER_ERROR", .serverError),
   ("INTERNAL_ERROR", .serverError),
   ("SERVICE_UNAVAILABLE", .serverError),
   ("INSUFFICIENT_BALANCE", .insufficientBalanceError),
   ("INSUFFICIENT_MARGIN", .insufficientBalanceError),
   ("INSUFFICIENT_FUNDS", .insufficientBalanceError),
   ("ORDER_REJECTED", .orderError),
   ("ORDER_FAILED", .orderError),
   ("POSITION_ERROR", .positionError),
   ("POSITION_CLOSED", .positionError)]

/-- ERROR_CODE_MAP.get(code, MudrexAPIError) without the default: a string
code is looked up in the mapping; a non-string code is never a key of the
mapping, so it yields no entry. -/
def lookupErrorCode (code : JVal) : Option ExcKind :=
  match code with
  | .jstr s => lookupAssoc ERROR_CODE_MAP s
  | _ => none

/-- Extraction of the error code in raise_for_error
(mudrex/exceptions.py): the code field of the response, defaulting to
UNKNOWN_ERROR, overridden by the code field of the first entry of a
non-empty errors array when that entry is a dictionary holding a truthy
code. A truthy non-list errors value would crash the message loop in the
source; that corner is not modelled. -/
def extract_error_code (response : List (String × JVal)) : JVal :=
  let code := dgetD response "code" (.jstr "UNKNOWN_ERROR")
  match dgetD response "errors" (.jarr []) with
  | .jarr (e0 :: _) =>
    match e0 with
    | .jobj fields =>
      let c := dgetD fields "code" .jnull
      if c.truthy then c else code
    | _ => code
  | _ => code

/-- The status-code fallback of raise_for_error, applied when the error
code is not a key of ERROR_CODE_MAP, in the order written in the source. -/
def status_fallback (status_code : ℤ) : ExcKind :=
  if status_code = 401 ∨ status_code = 403 then .authenticationError
  else if status_code = 404 then .notFoundError
  else if status_code = 429 then .rateLimitError
  else if status_code = 409 then .conflictError
  else if 500 ≤ status_code then .serverError
  else if status_code = 400 then .validationError
  else .apiError

/-- Translation of raise_for_error from mudrex/exceptions.py, tracking the
kind of the exception raised (the message construction in between does not
affect the kind): none when no error is detected, some kind when an
exception of that kind is raised. -/
def raise_for_error (response : List (String × JVal)) (status_code : ℤ) :
    Option ExcKind :=
  if (dgetD response "success" (.jbool true)).truthy = true ∧ status_code < 400 then
    none
  else
    let cls := (lookupErrorCode (extract_error_code response)).getD .apiError
    some (if cls = .apiError then status_fallback status_code else cls)

/-- Python truthiness of an optional string argument: None and the empty
string are falsy. -/
def strTruthy : Option String → Bool
  | none => false
  | some s => s ≠ ""

/-- The ValueError message of OrdersAPI._resolve_identifier, naming both
accepted parameter forms. -/
def resolve_identifier_msg : String :=
  "Either symbol or asset_id is required. Example: create_market_order(symbol=BTCUSDT, ...)"

/-- Translation of OrdersAPI._resolve_identifier from mudrex/api/orders.py:
a truthy symbol takes priority, else a truthy asset_id, else a ValueError
naming both accepted parameter forms. -/
def resolve_identifier (symbol asset_id : Option String) :
    Except String (String × Bool) :=
  if strTruthy symbol then .ok (symbol.getD "", true)
  else if strTruthy asset_id then .ok (asset_id.getD "", false)
  else .error resolve_identifier_msg

/-- A network request issued by order creation: the asset-specification
lookup and the order submission. -/
inductive NetRequest where
  | assetFetch (identifier : String) (use_symbol : Bool)
  | postOrder (identifier : String) (use_symbol : Bool)
deriving DecidableEq

/-- Outcome of the asset-specification fetch inside _create_order: a
successful fetch, an exception whose text contains the words not found, or
any other exception (which the source swallows, continuing with the
caller-supplied values). -/
inductive FetchOutcome where
  | ok
  | notFound
  | otherError
deriving DecidableEq

/-- ValueError message for a missing side. -/
def side_required_msg : String :=
  "side is required. Use LONG to buy or SHORT to sell."

/-- ValueError message for a missing quantity. -/
def quantity_required_msg : String :=
  "quantity is required. Use create_market_order_with_amount() to specify a USD amount instead."

/-- ValueError message for a side that is neither LONG nor SHORT. -/
def invalid_side_msg : String :=
  "Invalid side. Must be LONG (buy) or SHORT (sell)."

/-- ValueError message for an unknown identifier. -/
def symbol_not_found_msg : String :=
  "Symbol not found. Use client.assets.search to find valid symbols."

/-- Control-flow model of OrdersAPI.create_market_order together with the
validation prefix of OrdersAPI._create_order (mudrex/api/orders.py):
identifier resolution, then the side and quantity presence checks and the
side value check, then the asset-specification fetch and the order
submission. The second component lists the network requests issued, in
order. The quantity and price rounding between the two requests is payload
arithmetic (modelled by calculate_order_from_usd, decPrecision and
validate_quantity in this file) and issues no request, so it is not
tracked here; a below-minimum ValueError raised inside the try block of
the source is swallowed by its own except clause, so it does not end the
flow either. -/
def create_market_order_flow (symbol asset_id side quantity : Option String)
    (fetch_outcome : FetchOutcome) :
    Except String (String × Bool) × List NetRequest :=
  match resolve_identifier symbol asset_id with
  | .error m => (.error m, [])
  | .ok (ident, use_symbol) =>
    if strTruthy side = false then (.error side_required_msg, [])
    else if strTruthy quantity = false then (.error quantity_required_msg, [])
    else if (side.getD "").toUpper ≠ "LONG" ∧ (side.getD "").toUpper ≠ "SHORT" then
      (.error invalid_side_msg, [])
    else
      match fetch_outcome with
      | .notFound => (.error symbol_not_found_msg, [.assetFetch ident use_symbol])
      | _ => (.ok (ident, use_symbol),
              [.assetFetch ident use_symbol, .postOrder ident use_symbol])

/-- Boolean prefix test on character lists. -/
def listPrefix : List Char → List Char → Bool
  | [], _ => true
  | _ :: _, [] => false
  | a :: as, b :: bs => a = b && listPrefix as bs

/-- Boolean occurrence test of one character list inside another. -/
def subOccurs (sub : List Char) : List Char → Bool
  | [] => sub.isEmpty
  | c :: rest => listPrefix sub (c :: rest) || subOccurs sub rest

/-- Containment of a substring, computed on the character lists. -/
def containsSub (s sub : String) : Bool :=
  subOccurs sub.toList s.toList

/-- Order direction enum (mudrex/models.py OrderType). -/
inductive OrderTypeE where
  | LONG
  | SHORT
deriving DecidableEq

/-- Python OrderType(value): only the two member values coerce. -/
def OrderTypeE.ofJVal : JVal → Except String OrderTypeE
  | .jstr "LONG" => .ok .LONG
  | .jstr "SHORT" => .ok .SHORT
  | _ => .error "not a valid OrderType"

/-- Order execution type enum (mudrex/models.py TriggerType). -/
inductive TriggerTypeE where
  | MARKET
  | LIMIT
deriving DecidableEq

/-- Python TriggerType(value): only the two member values coerce. -/
def TriggerTypeE.ofJVal : JVal → Except String TriggerTypeE
  | .jstr "MARKET" => .ok .MARKET
  | .jstr "LIMIT" => .ok .LIMIT
  | _ => .error "not a valid TriggerType"

/-- Order status enum (mudrex/models.py OrderStatus). -/
inductive OrderStatusE where
  | CREATED
  | OPEN
  | FILLED
  | PARTIALLY_FILLED
  | CANCELLED
  | EXPIRED
deriving DecidableEq

/-- Python OrderStatus(value): only the member values coerce. -/
def OrderStatusE.ofJVal : JVal → Except String OrderStatusE
  | .jstr "CREATED" => .ok .CREATED
  | .jstr "OPEN" => .ok .OPEN
  | .jstr "FILLED" => .ok .FILLED
  | .jstr "PARTIALLY_FILLED" => .ok .PARTIALLY_FILLED
  | .jstr "CANCELLED" => .ok .CANCELLED
  | .jstr "EXPIRED" => .ok .EXPIRED
  | _ => .error "not a valid OrderStatus"

/-- Position status enum (mudrex/models.py PositionStatus). -/
inductive PositionStatusE where
  | OPEN
  | CLOSED
  | LIQUIDATED
deriving DecidableEq

/-- Python PositionStatus(value): only the member values coerce. -/
def PositionStatusE.ofJVal : JVal → Except String PositionStatusE
  | .jstr "OPEN" => .ok .OPEN
  | .jstr "CLOSED" => .ok .CLOSED
  | .jstr "LIQUIDATED" => .ok .LIQUIDATED
  | _ => .error "not a valid PositionStatus"

/-- The filled-quantity chain of Order.from_dict: str applied to
data.get("filled_quantity") or data.get("filled_size") or "0". -/
def normalize_filled_quantity (data : List (String × JVal)) : String :=
  (pyOrV (pyOrV (dgetD data "filled_quantity" .jnull) (dgetD data "filled_size" .jnull)) (.jstr "0")).pyStr

/-- The Order record of mudrex/models.py. The datetime fields keep the raw
payload value (the _parse_datetime helper of the source never raises, so
this does not change which payloads parse). -/
structure Order where
  order_id : JVal
  asset_id : JVal
  symbol : JVal
  order_type : OrderTypeE
  trigger_type : TriggerTypeE
  status : OrderStatusE
  quantity : String
  filled_quantity : String
  price : String
  leverage : String
  created_at_raw : JVal
  updated_at_raw : JVal
  stoploss_price : JVal
  takeprofit_price : JVal

/-- Translation of Order.from_dict from mudrex/models.py; an enum value
that does not coerce raises ValueError, modelled as error. -/
def Order.from_dict (data : List (String × JVal)) : Except String Order :=
  match OrderTypeE.ofJVal (dgetD data "order_type" (.jstr "LONG")),
        TriggerTypeE.ofJVal (dgetD data "trigger_type" (.jstr "MARKET")),
        OrderStatusE.ofJVal (dgetD data "status" (.jstr "OPEN")) with
  | .ok order_type, .ok trigger_type, .ok status =>
    .ok {
      order_id := dgetD data "order_id" (dgetD data "id" (.jstr "")),
      asset_id := dgetD data "asset_id" (.jstr ""),
      symbol := dgetD data "symbol" (dgetD data "asset_id" (.jstr "")),
      order_type := order_type,
      trigger_type := trigger_type,
      status := status,
      quantity := normalize_quantity data,
      filled_quantity := normalize_filled_quantity data,
      price := (dgetD data "price" (dgetD data "order_price" (.jstr "0"))).pyStr,
      leverage := (dgetD data "leverage" (.jstr "1")).pyStr,
      created_at_raw := dgetD data "created_at" .jnull,
      updated_at_raw := dgetD data "updated_at" .jnull,
      stoploss_price := dgetD data "stoploss_price" .jnull,
      takeprofit_price := dgetD data "takeprofit_price" .jnull }
  | .error e, _, _ => .error e
  | _, .error e, _ => .error e
  | _, _, .error e => .error e

/-- Parse a nonempty string of decimal digits. -/
def parseDigits : List Char → Option ℕ
  | [] => none
  | cs =>
    if cs.all Char.isDigit then
      some (cs.foldl (fun a c => a * 10 + (c.toNat - 48)) 0)
    else none

/-- Python float() applied to a plain decimal string: an optional sign,
then digits with at most one decimal point and at least one digit on one
side of it. Scientific notation, infinities and nan are not modelled (no
claim exercises them). none models a ValueError. -/
def pyFloat (s : String) : Option ℚ :=
  let cs := s.toList
  let sgn : ℚ := match cs with
    | '-' :: _ => -1
    | _ => 1
  let body : List Char := match cs with
    | '-' :: rest => rest
    | '+' :: rest => rest
    | _ => cs
  match body.splitOn '.' with
  | [intPart] => (parseDigits intPart).map (fun n => sgn * n)
  | [intPart, fracPart] =>
    if intPart.isEmpty && fracPart.isEmpty then none
    else
      match (if intPart.isEmpty then some 0 else parseDigits intPart),
            (if fracPart.isEmpty then some 0 else parseDigits fracPart) with
      | some i, some f => some (sgn * ((i : ℚ) + (f : ℚ) / 10 ^ fracPart.length))
      | _, _ => none
  | _ => none

/-- Translation of the Order.fill_percentage property of mudrex/models.py:
filled/quantity*100 when both fields parse as numbers and the quantity is
positive; parse failures and a nonpositive quantity degrade to zero. -/
def Order.fill_percentage (o : Order) : ℚ :=
  match pyFloat o.quantity with
  | none => 0
  | some qty =>
    match pyFloat o.filled_quantity with
    | none => 0
    | some filled => if 0 < qty then filled / qty * 100 else 0

/-- The Position record of mudrex/models.py. The datetime field keeps the
raw payload value, as in the Order record. -/
structure Position where
  position_id : JVal
  asset_id : JVal
  symbol : JVal
  side : OrderTypeE
  quantity : String
  entry_price : String
  mark_price : String
  leverage : String
  margin : String
  unrealized_pnl : String
  realized_pnl : String
  liquidation_price : JVal
  stoploss_price : JVal
  takeprofit_price : JVal
  status : PositionStatusE
  created_at_raw : JVal

/-- Stop-loss and take-profit extraction of Position.from_dict: when the
value under the nested key is a dictionary, its price field is used, even
when the flat key is also present; otherwise the flat key is used. -/
def extract_risk_price (data : List (String × JVal)) (nested_key flat_key : String) : JVal :=
  match dgetD data nested_key .jnull with
  | .jobj fields => dgetD fields "price" .jnull
  | _ => dgetD data flat_key .jnull

/-- Translation of Position.from_dict from mudrex/models.py. -/
def Position.from_dict (data : List (String × JVal)) : Except String Position :=
  match OrderTypeE.ofJVal (dgetD data "side" (dgetD data "order_type" (.jstr "LONG"))),
        PositionStatusE.ofJVal (dgetD data "status" (.jstr "OPEN")) with
  | .ok side, .ok status =>
    .ok {
      position_id := dgetD data "position_id" (dgetD data "id" (.jstr "")),
      asset_id := dgetD data "asset_id" (.jstr ""),
      symbol := dgetD data "symbol" (dgetD data "asset_id" (.jstr "")),
      side := side,
      quantity := normalize_quantity data,
      entry_price := (dgetD data "entry_price" (.jstr "0")).pyStr,
      mark_price := normalize_mark_price data,
      leverage := (dgetD data "leverage" (.jstr "1")).pyStr,
      margin := (dgetD data "margin" (.jstr "0")).pyStr,
      unrealized_pnl := (dgetD data "unrealized_pnl" (.jstr "0")).pyStr,
      realized_pnl := (dgetD data "realized_pnl" (.jstr "0")).pyStr,
      liquidation_price := dgetD data "liquidation_price" .jnull,
      stoploss_price := extract_risk_price data "stoploss" "stoploss_price",
      takeprofit_price := extract_risk_price data "takeprofit" "takeprofit_price",
      status := status,
      created_at_raw := dgetD data "created_at" .jnull }
  | .error e, _ => .error e
  | _, .error e => .error e

/-- The nested stop-loss/take-profit payload of the specification example. -/
def nested_payload : List (String × JVal) :=
  [("stoploss", .jobj [("price", .jstr "4100")]),
   ("takeprofit", .jobj [("price", .jstr "5000")])]

/-- The flat stop-loss payload of the specification example. -/
def flat_payload : List (String × JVal) :=
  [("stoploss_price", .jstr "101000")]

/-- A payload carrying both the nested and the flat stop-loss form. -/
def both_payload : List (String × JVal) :=
  [("stoploss", .jobj [("price", .jstr "4100")]),
   ("stoploss_price", .jstr "999")]

/-- The Position record that Position.from_dict yields on both_payload:
the nested stop-loss price wins over the flat key. -/
def both_position : Position :=
  { position_id := .jstr "", asset_id := .jstr "", symbol := .jstr "",
    side := .LONG, quantity := "0", entry_price := "0", mark_price := "0",
    leverage := "1", margin := "0", unrealized_pnl := "0", realized_pnl := "0",
    liquidation_price := .jnull, stoploss_price := .jstr "4100",
    takeprofit_price := .jnull, status := .OPEN, created_at_raw := .jnull }

/-- An order record with quantity 0.5 and filled quantity 0.1. -/
def orderA : Order :=
  { order_id := .jstr "a", asset_id := .jstr "", symbol := .jstr "",
    order_type := .LONG, trigger_type := .MARKET, status := .OPEN,
    quantity := "0.5", filled_quantity := "0.1", price := "0", leverage := "1",
    created_at_raw := .jnull, updated_at_raw := .jnull,
    stoploss_price := .jnull, takeprofit_price := .jnull }

/-- A different order record sharing the quantity fields of orderA. -/
def orderB : Order :=
  { order_id := .jstr "b", asset_id := .jstr "x", symbol := .jstr "y",
    order_type := .SHORT, trigger_type := .LIMIT, status := .FILLED,
    quantity := "0.5", filled_quantity := "0.1", price := "7", leverage := "3",
    created_at_raw := .jnull, updated_at_raw := .jnull,
    stoploss_price := .jnull, takeprofit_price := .jnull }

/-- The Order record that Order.from_dict yields on size_payload. -/
def sizeOrder : Order :=
  { order_id := .jstr "", asset_id := .jstr "", symbol := .jstr "",
    order_type := .LONG, trigger_type := .MARKET, status := .OPEN,
    quantity := "0.5", filled_quantity := "0.1", price := "0", leverage := "1",
    created_at_raw := .jnull, updated_at_raw := .jnull,
    stoploss_price := .jnull, takeprofit_price := .jnull }

/-- An order-history payload whose filled quantity exceeds its quantity. -/
def overfilled_payload : List (String × JVal) :=
  [("quantity", .jstr "1"), ("filled_quantity", .jstr "2")]

/-- The order-record payload of the specification example, using the size
terminology. -/
def size_payload : List (String × JVal) :=
  [("size", .jstr "0.5"), ("filled_size", .jstr "0.1")]

theorem ratFloor_eq (x : ℚ) : ratFloor x = ⌊x⌋ :=
  Rat.floor_def.symm

theorem roundHalfEven_dist (x : ℚ) : |(roundHalfEven x : ℚ) - x| ≤ 1/2 := by
  have h0 : (⌊x⌋ : ℚ) ≤ x := Int.floor_le x
  have h1 : x < ⌊x⌋ + 1 := Int.lt_floor_add_one x
  unfold roundHalfEven
  rw [ratFloor_eq]
  split_ifs with hl hg hev <;> rw [abs_le] <;> constructor <;> push_cast <;> linarith

theorem den_one_num (q : ℚ) (h : q.den = 1) : ((q.num : ℚ)) = q := by
  have h3 := Rat.num_div_den q
  rw [h] at h3
  simpa using h3

theorem roundHalfEven_intCast (n : ℤ) : roundHalfEven (n : ℚ) = n := by
  unfold roundHalfEven
  rw [ratFloor_eq, Int.floor_intCast]
  norm_num

theorem roundHalfEven_den_one (q : ℚ) (h : q.den = 1) : ((roundHalfEven q : ℤ) : ℚ) = q := by
  conv_lhs => rw [← den_one_num q h]
  rw [roundHalfEven_intCast, den_one_num q h]

theorem den_one_intCast_mul (n : ℤ) (q : ℚ) (h : q.den = 1) : ((n : ℚ) * q).den = 1 := by
  rw [← den_one_num q h, ← Int.cast_mul, Rat.den_intCast]

theorem den_one_mul_pow (q : ℚ) (k : ℕ) (h : q.den = 1) : (q * 10 ^ k).den = 1 := by
  have e : q * 10 ^ k = ((q.num * 10 ^ k : ℤ) : ℚ) := by
    conv_lhs => rw [← den_one_num q h]
    push_cast
    ring
  rw [e, Rat.den_intCast]

theorem pyRoundTo_den_one (x : ℚ) (p : ℕ) (h : (x * 10 ^ p).den = 1) : pyRoundTo x p = x := by
  unfold pyRoundTo
  rw [roundHalfEven_den_one _ h]
  rw [mul_div_assoc, div_self (pow_ne_zero p (show (10 : ℚ) ≠ 0 by norm_num)), mul_one]

theorem leastDecDigits_spec (s : ℚ) (h : decExact s = true) :
    (s * 10 ^ leastDecDigits s).den = 1 := by
  unfold decExact at h
  unfold leastDecDigits
  cases hf : (List.range 41).find? (fun p => (s * 10 ^ p).den = 1) with
  | none => rw [hf] at h; simp at h
  | some p =>
    have hp : (s * 10 ^ p).den = 1 := by
      have := List.find?_some hf
      simpa using this
    dsimp only
    exact hp

/-- In the fixed-notation range of Python str(), the printed fractional
digit count is the length of the shortest decimal expansion, at least 1. -/
theorem decPrecision_fixed (s : ℚ) (h0 : s ≠ 0)
    (hr : 1/10000 ≤ |s| ∧ |s| < 10 ^ 16) :
    decPrecision s = max (leastDecDigits s) 1 := by
  unfold decPrecision
  rw [if_neg h0, if_pos hr]

theorem decExact_spec (s : ℚ) (h : decExact s = true) (h0 : s ≠ 0)
    (hr : 1/10000 ≤ |s| ∧ |s| < 10 ^ 16) :
    (s * 10 ^ decPrecision s).den = 1 := by
  rw [decPrecision_fixed s h0 hr]
  obtain ⟨k, hk⟩ := Nat.exists_eq_add_of_le (le_max_left (leastDecDigits s) 1)
  rw [hk, pow_add, ← mul_assoc]
  exact den_one_mul_pow _ k (leastDecDigits_spec s h)

theorem normalize_quantity_cases (data : List (String × JVal)) :
    normalize_quantity data =
      if (dgetD data "quantity" .jnull).truthy then (dgetD data "quantity" .jnull).pyStr
      else if (dgetD data "size" .jnull).truthy then (dgetD data "size" .jnull).pyStr
      else "0" := by
  simp only [normalize_quantity, pyOrV]
  by_cases hq : (dgetD data "quantity" .jnull).truthy <;>
    by_cases hs : (dgetD data "size" .jnull).truthy <;>
    simp [hq, hs, JVal.pyStr]

/-- Claim C1 (corrected). normalize_quantity returns str of the quantity
value when that value is present and Python-truthy, else str of the size
value when truthy, else the string "0". A quantity equal to the number 0,
the empty string, or None falls through to size; but the STRING "0" is
truthy in Python, so contrary to the claim it does not fall through: it is
returned as is. -/
theorem claim_C1 :
    (∀ data : List (String × JVal),
      normalize_quantity data =
        if (dgetD data "quantity" .jnull).truthy then (dgetD data "quantity" .jnull).pyStr
        else if (dgetD data "size" .jnull).truthy then (dgetD data "size" .jnull).pyStr
        else "0") ∧
    normalize_quantity [("quantity", .jnum 0), ("size", .jstr "5")] = "5" ∧
    normalize_quantity [("quantity", .jstr ""), ("size", .jstr "5")] = "5" ∧
    normalize_quantity [("quantity", .jnull), ("size", .jstr "5")] = "5" ∧
    normalize_quantity [("size", .jstr "0.5")] = "0.5" ∧
    normalize_quantity [] = "0" ∧
    normalize_quantity [("quantity", .jstr "0"), ("size", .jstr "5")] = "0" :=
  ⟨normalize_quantity_cases, by decide, by decide, by decide, by decide, by decide, by decide⟩

/-- Claim C1 counterexample: on the payload whose quantity is the string
"0" and whose size is "5", the claim says the zero-like quantity falls
through to size giving "5", but the code returns "0" (a non-empty string
is truthy). -/
theorem claim_C1_counterexample :
    normalize_quantity [("quantity", JVal.jstr "0"), ("size", JVal.jstr "5")] = "0" ∧
    ("0" : String) ≠ "5" := by
  constructor
  · decide
  · decide

/-- Claim C3 (code bug). The claim says a step of zero leaves the raw
quantity unchanged and raises nothing, but calculate_order_from_usd divides
by the step unconditionally: with a zero step it raises ZeroDivisionError
(modelled as none) for every usd amount and price, in particular at the
failing input usd = 5, price = 2. A negative step does not return the raw
quantity either: it applies the rounding rule (final conjunct). -/
theorem claim_C3 :
    (∀ usd price : ℚ, calculate_order_from_usd usd price 0 = none) ∧
    calculate_order_from_usd 5 2 0 = none ∧
    calculate_order_from_usd 5 2 (-1) = some (2, 4) := by
  refine ⟨?_, by with_unfolding_all decide, by with_unfolding_all decide⟩
  intro usd price
  unfold calculate_order_from_usd pyDiv
  by_cases hp : price = 0 <;> simp [hp]

/-- Claim C4 (code bug). In exact arithmetic the claim holds: a rounded
quantity is an exact multiple of the step and validate_quantity accepts it
(second conjunct, at quantity 3/10 and step 1/10). But the source computes
with binary doubles: for raw quantity 0.3 and step 0.1 the rounded result
is the double nearest 0.3, and validate_quantity applied to the exact
values of those doubles returns false, because the float remainder
0.3 % 0.1 is one ulp below 0.1 rather than near 0, far outside the
one-percent tolerance. The first conjunct evaluates the code at those
exact double values. -/
theorem claim_C4 :
    validate_quantity float03 float01 = false ∧
    validate_quantity (3/10) (1/10) = true := by
  constructor
  · with_unfolding_all decide
  · with_unfolding_all decide

/-- Claim C5 (corrected). For every usd amount, positive price and
positive step that has a finite decimal form and lies in the fixed-notation
range of Python str() (at least 0.0001 and below 1e16, so that the printed
step has a decimal point covering its expansion), calculate_order_from_usd
returns a quantity whose notional differs from usd by at most one step of
notional: the rounded quantity is an exact multiple n * step with n the
nearest integer to raw/step, so the quantity is within step/2 of
raw = usd/price and the notional within step * price / 2 of usd. For
smaller steps str() switches to scientific notation, the source computes
rounding precision 0 and the claimed bound fails (see the
counterexample). -/
theorem claim_C5 (usd price s : ℚ) (hp : 0 < price) (hs : 0 < s)
    (hd : decExact s = true) (hlo : 1/10000 ≤ s) (hhi : s < 10 ^ 16) :
    ∃ q v, calculate_order_from_usd usd price s = some (q, v) ∧
      v = q * price ∧ |q * price - usd| ≤ s * price := by
  have hpne : price ≠ 0 := ne_of_gt hp
  have hsne : s ≠ 0 := ne_of_gt hs
  have hr : 1/10000 ≤ |s| ∧ |s| < 10 ^ 16 := by
    rw [abs_of_pos hs]
    exact ⟨hlo, hhi⟩
  set raw := usd / price with hraw
  set n := roundHalfEven (raw / s) with hn
  have hden : ((n : ℚ) * s * 10 ^ decPrecision s).den = 1 := by
    rw [mul_assoc]
    exact den_one_intCast_mul n _ (decExact_spec s hd hsne hr)
  have heval : calculate_order_from_usd usd price s = some ((n : ℚ) * s, (n : ℚ) * s * price) := by
    unfold calculate_order_from_usd pyDiv
    rw [if_neg hpne]
    simp only [Option.bind_eq_bind, Option.some_bind]
    rw [if_neg hsne]
    simp only [Option.some_bind]
    rw [← hraw, ← hn]
    rw [pyRoundTo_den_one _ _ hden]
  refine ⟨(n : ℚ) * s, (n : ℚ) * s * price, heval, rfl, ?_⟩
  have hdist : |(n : ℚ) - raw / s| ≤ 1 / 2 := roundHalfEven_dist (raw / s)
  have hq2 : raw / s * s = raw := div_mul_cancel₀ raw hsne
  have hu : raw * price = usd := div_mul_cancel₀ usd hpne
  have e1 : (n : ℚ) * s * price - usd = ((n : ℚ) - raw / s) * s * price := by
    rw [sub_mul, sub_mul, hq2, hu]
  rw [e1, abs_mul, abs_mul, abs_of_pos hs, abs_of_pos hp]
  have h1 : |(n : ℚ) - raw / s| * s ≤ 1 / 2 * s :=
    mul_le_mul_of_nonneg_right hdist (le_of_lt hs)
  have h2 : |(n : ℚ) - raw / s| * s * price ≤ 1 / 2 * s * price :=
    mul_le_mul_of_nonneg_right h1 (le_of_lt hp)
  have h3 : 0 < s * price := mul_pos hs hp
  linarith

/-- Witness for claim C5 at usd = 5, price = 2, step = 1/10: the result is
the quantity 5/2 with notional 5, within one step of notional of 5. -/
theorem claim_C5_witness :
    ∃ q v, calculate_order_from_usd 5 2 (1/10) = some (q, v) ∧
      v = q * 2 ∧ |q * 2 - 5| ≤ 1/10 * 2 :=
  claim_C5 5 2 (1/10) (by norm_num) (by norm_num) (by with_unfolding_all decide)
    (by norm_num) (by norm_num)

/-- Claim C5 counterexample: at usd = 1/10000, price = 5 and the positive
step 1/100000 (a step with a finite decimal form, but printed by Python as
1e-05, which has no decimal point), the source computes rounding precision
0: the raw quantity 2e-05 rounds to the step multiple 2e-05 and then
round(2e-05, 0) collapses it to 0, so the returned notional is 0 and
differs from usd by 1/10000, which exceeds one step of notional,
5/100000. -/
theorem claim_C5_counterexample :
    calculate_order_from_usd (1/10000) 5 (1/100000) = some (0, 0) ∧
    decExact (1/100000) = true ∧
    (0 : ℚ) < 1/100000 ∧
    ¬ (|(0 : ℚ) * 5 - 1/10000| ≤ 1/100000 * 5) := by
  refine ⟨by with_unfolding_all decide, by with_unfolding_all decide,
    by norm_num, ?_⟩
  rw [zero_mul, zero_sub, abs_neg, abs_of_pos (show (0:ℚ) < 1/10000 by norm_num)]
  norm_num

theorem limitReached_none (c : ℕ) : limitReached none c = false := rfl

theorem get_history_go_drain {α β : Type} (fetch : ℕ → List α) (conv : α → β)
    (per_page : ℕ) (hpp : 0 < per_page) :
    ∀ (k fuel page : ℕ) (acc : List β), k + 1 ≤ fuel →
      (∀ i, i < k → (fetch (page + i)).length = per_page) →
      (fetch (page + k)).length < per_page →
      get_history_go fetch conv none per_page fuel page acc =
        some (acc ++ pagesJoin fetch conv page (k + 1), page + k) := by
  intro k
  induction k with
  | zero =>
    intro fuel page acc hfuel hfull hshort
    obtain ⟨f, rfl⟩ : ∃ f, fuel = f + 1 := ⟨fuel - 1, by omega⟩
    rw [Nat.add_zero] at hshort
    simp only [get_history_go, pagesJoin]
    by_cases hz : (fetch page).length = 0
    · rw [if_pos hz]
      have he : fetch page = [] := List.length_eq_zero.mp hz
      simp [he]
    · rw [if_neg hz, if_neg (show ¬ limitReached none (acc ++ (fetch page).map conv).length = true by
        rw [limitReached_none]; simp)]
      rw [if_pos hshort]
      simp
  | succ k ih =>
    intro fuel page acc hfuel hfull hshort
    obtain ⟨f, rfl⟩ : ∃ f, fuel = f + 1 := ⟨fuel - 1, by omega⟩
    have hlen : (fetch page).length = per_page := by
      have := hfull 0 (Nat.succ_pos k)
      simpa using this
    have hz : ¬ (fetch page).length = 0 := by omega
    simp only [get_history_go]
    rw [if_neg hz, if_neg (show ¬ limitReached none (acc ++ (fetch page).map conv).length = true by
        rw [limitReached_none]; simp)]
    rw [if_neg (show ¬ (fetch page).length < per_page by omega)]
    rw [ih f (page + 1) (acc ++ (fetch page).map conv) (by omega)
        (fun i hi => by
          rw [show page + 1 + i = page + (i + 1) by omega]
          exact hfull (i + 1) (by omega))
        (by
          rw [show page + 1 + k = page + (k + 1) by omega]
          exact hshort)]
    simp only [pagesJoin, List.append_assoc]
    congr 2
    omega

/-- The fees history loop with no symbol argument is the plain history
loop: the filter stage is skipped. -/
theorem fees_go_no_symbol {α β : Type} (fetch : ℕ → List α) (conv : α → β)
    (sym_match : β → String → Bool) (limit : Option ℤ) (per_page : ℕ) :
    ∀ (fuel page : ℕ) (acc : List β),
      fees_get_history_go fetch conv none sym_match limit per_page fuel page acc =
        get_history_go fetch conv limit per_page fuel page acc := by
  intro fuel
  induction fuel with
  | zero => intro page acc; rfl
  | succ f ih =>
    intro page acc
    simp only [fees_get_history_go, get_history_go]
    split_ifs <;> first | rfl | exact ih _ _

theorem get_history_go_limit_zero {α β : Type} (fetch : ℕ → List α) (conv : α → β)
    (per_page : ℕ) :
    ∀ (fuel page : ℕ) (acc : List β),
      get_history_go fetch conv (some 0) per_page fuel page acc =
        get_history_go fetch conv none per_page fuel page acc := by
  intro fuel
  induction fuel with
  | zero => intro page acc; rfl
  | succ f ih =>
    intro page acc
    simp only [get_history_go]
    have hz : ∀ c : ℕ, limitReached (some 0) c = false := by
      intro c
      simp [limitReached, limitTruthy]
    simp only [hz, limitReached_none]
    split_ifs <;> first | rfl | exact ih _ _

theorem fees_get_history_go_limit_zero {α β : Type} (fetch : ℕ → List α) (conv : α → β)
    (symbol : Option String) (sym_match : β → String → Bool) (per_page : ℕ) :
    ∀ (fuel page : ℕ) (acc : List β),
      fees_get_history_go fetch conv symbol sym_match (some 0) per_page fuel page acc =
        fees_get_history_go fetch conv symbol sym_match none per_page fuel page acc := by
  intro fuel
  induction fuel with
  | zero => intro page acc; rfl
  | succ f ih =>
    intro page acc
    simp only [fees_get_history_go]
    have hz : ∀ c : ℕ, limitReached (some 0) c = false := by
      intro c
      simp [limitReached, limitTruthy]
    simp only [hz, limitReached_none]
    split_ifs <;> first | rfl | exact ih _ _

/-- Claim C2 (confirmed). For the paginated history fetch of page size 100:
with no cap, the loop concatenates the converted items of every page up to
and including the first page that is shorter than 100 items (or empty), and
that page is the last one requested, so a 100/100/37 feed yields the
concatenation of the three pages, 237 items, after exactly 3 requests;
with a cap of 150 over full pages, the loop returns after the second page
with the accumulated list truncated to exactly 150 items. The fees loop
with no symbol filter is the same loop. -/
theorem claim_C2 :
    (∀ (α β : Type) (fetch : ℕ → List α) (conv : α → β) (fuel k : ℕ),
        k + 1 ≤ fuel →
        (∀ i, i < k → (fetch (1 + i)).length = 100) →
        (fetch (1 + k)).length < 100 →
        get_history fetch conv none fuel = some (pagesJoin fetch conv 1 (k + 1), 1 + k)) ∧
    (∀ (α β : Type) (fetch : ℕ → List α) (conv : α → β) (fuel : ℕ),
        2 ≤ fuel → (fetch 1).length = 100 → (fetch 2).length = 100 →
        get_history fetch conv (some 150) fuel =
          some (((fetch 1).map conv ++ (fetch 2).map conv).take 150, 2)) ∧
    (∀ (α β : Type) (fetch : ℕ → List α) (conv : α → β)
        (sym_match : β → String → Bool) (limit : Option ℤ) (fuel : ℕ),
        fees_get_history fetch conv none sym_match limit fuel =
          get_history fetch conv limit fuel) := by
  refine ⟨?_, ?_, ?_⟩
  · intro α β fetch conv fuel k hfuel hfull hshort
    unfold get_history
    rw [get_history_go_drain fetch conv 100 (by omega) k fuel 1 [] hfuel hfull hshort]
    simp
  · intro α β fetch conv fuel hfuel h1 h2
    obtain ⟨f, rfl⟩ : ∃ f, fuel = f + 2 := ⟨fuel - 2, by omega⟩
    have hz1 : ¬ (fetch 1).length = 0 := by omega
    have hz2 : ¬ (fetch 2).length = 0 := by omega
    unfold get_history
    simp only [get_history_go]
    rw [if_neg hz1]
    have l1 : (([] : List β) ++ (fetch 1).map conv).length = 100 := by simp [h1]
    rw [if_neg (show ¬ limitReached (some 150) (([] : List β) ++ (fetch 1).map conv).length = true by
      rw [l1]; decide)]
    rw [if_neg (show ¬ (fetch 1).length < 100 by omega)]
    rw [if_neg hz2]
    have l2 : ((([] : List β) ++ (fetch 1).map conv) ++ (fetch 2).map conv).length = 200 := by
      simp [h1, h2]
    rw [if_pos (show limitReached (some 150) ((([] : List β) ++ (fetch 1).map conv) ++ (fetch 2).map conv).length = true by
      rw [l2]; decide)]
    simp [pySlice, limitVal]
  · intro α β fetch conv sym_match limit fuel
    unfold fees_get_history get_history
    exact fees_go_no_symbol fetch conv sym_match limit 100 fuel 1 []

/-- Witness for claim C2 on the concrete 100/100/37 feed fetchEx: the
uncapped fetch returns all 237 items after 3 page requests, and the fetch
capped at 150 returns exactly 150 items after 2 page requests. -/
theorem claim_C2_witness :
    get_history fetchEx id none 10 = some (pagesJoin fetchEx id 1 3, 3) ∧
    (pagesJoin fetchEx id 1 3).length = 237 ∧
    get_history fetchEx id (some 150) 10 =
      some (((fetchEx 1).map id ++ (fetchEx 2).map id).take 150, 2) ∧
    (((fetchEx 1).map id ++ (fetchEx 2).map id).take 150).length = 150 :=
  ⟨claim_C2.1 ℕ ℕ fetchEx id 10 2 (by omega) (by decide) (by decide),
   by decide,
   claim_C2.2.1 ℕ ℕ fetchEx id 10 (by omega) (by decide) (by decide),
   by decide⟩

/-- Claim C10 (confirmed). For each paginated history fetch (the loop
shared by orders and positions, and the fees loop with any symbol filter),
a caller-supplied cap of exactly 0 is Python-falsy, so the fetch behaves
exactly as with no cap at all: it drains every page instead of returning
an empty list. -/
theorem claim_C10 :
    (∀ (α β : Type) (fetch : ℕ → List α) (conv : α → β) (fuel : ℕ),
        get_history fetch conv (some 0) fuel = get_history fetch conv none fuel) ∧
    (∀ (α β : Type) (fetch : ℕ → List α) (conv : α → β) (symbol : Option String)
        (sym_match : β → String → Bool) (fuel : ℕ),
        fees_get_history fetch conv symbol sym_match (some 0) fuel =
          fees_get_history fetch conv symbol sym_match none fuel) := by
  constructor
  · intro α β fetch conv fuel
    exact get_history_go_limit_zero fetch conv 100 fuel 1 []
  · intro α β fetch conv symbol sym_match fuel
    exact fees_get_history_go_limit_zero fetch conv symbol sym_match 100 fuel 1 []

theorem lookupAssoc_mem {γ : Type} :
    ∀ (l : List (String × γ)) (key : String) (v : γ),
      lookupAssoc l key = some v → (key, v) ∈ l := by
  intro l
  induction l with
  | nil => intro key v h; cases h
  | cons p rest ih =>
    intro key v h
    obtain ⟨k, w⟩ := p
    unfold lookupAssoc at h
    by_cases hk : k = key
    · rw [if_pos hk] at h
      cases h
      subst hk
      exact List.mem_cons_self _ _
    · rw [if_neg hk] at h
      exact List.mem_cons_of_mem _ (ih key v h)

/-- Every code recognized by ERROR_CODE_MAP maps to a specific exception
kind, never to the generic base kind, so the status fallback never fires
for a recognized code. -/
theorem lookupErrorCode_ne_apiError (c : JVal) (k : ExcKind)
    (h : lookupErrorCode c = some k) : k ≠ ExcKind.apiError := by
  cases c with
  | jstr s =>
    have hm := lookupAssoc_mem ERROR_CODE_MAP s k h
    have hall : ∀ p ∈ ERROR_CODE_MAP, (p : String × ExcKind).2 ≠ ExcKind.apiError := by decide
    exact hall (s, k) hm
  | jnum q => cases h
  | jbool b => cases h
  | jnull => cases h
  | jobj f => cases h
  | jarr l => cases h

/-- Claim C6 (confirmed). On any failing response (falsy success or status
at least 400), raise_for_error raises the kind that ERROR_CODE_MAP assigns
to the extracted error code whenever that code is recognized, regardless
of the status; when the code is unrecognized it raises the kind given by
the status fallback, which maps 401 and 403 to authentication, 404 to not
found, 429 to rate limit, 409 to conflict, any status of at least 500 to
server error, 400 to validation, and anything else (for example 418) to
the generic kind. In particular INSUFFICIENT_BALANCE at status 400 raises
the insufficient-balance kind rather than validation, and an unrecognized
code raises not-found at 404 and server-error at 503. -/
theorem claim_C6 :
    (∀ (response : List (String × JVal)) (status : ℤ) (k : ExcKind),
        ¬ ((dgetD response "success" (.jbool true)).truthy = true ∧ status < 400) →
        lookupErrorCode (extract_error_code response) = some k →
        raise_for_error response status = some k) ∧
    (∀ (response : List (String × JVal)) (status : ℤ),
        ¬ ((dgetD response "success" (.jbool true)).truthy = true ∧ status < 400) →
        lookupErrorCode (extract_error_code response) = none →
        raise_for_error response status = some (status_fallback status)) ∧
    status_fallback 401 = .authenticationError ∧
    status_fallback 403 = .authenticationError ∧
    status_fallback 404 = .notFoundError ∧
    status_fallback 429 = .rateLimitError ∧
    status_fallback 409 = .conflictError ∧
    (∀ s : ℤ, 500 ≤ s → status_fallback s = .serverError) ∧
    status_fallback 400 = .validationError ∧
    status_fallback 418 = .apiError ∧
    raise_for_error [("code", .jstr "INSUFFICIENT_BALANCE")] 400 = some .insufficientBalanceError ∧
    raise_for_error [("code", .jstr "MYSTERY_CODE")] 404 = some .notFoundError ∧
    raise_for_error [("code", .jstr "MYSTERY_CODE")] 503 = some .serverError := by
  refine ⟨?_, ?_, by decide, by decide, by decide, by decide, by decide, ?_,
    by decide, by decide, by decide, by decide, by decide⟩
  · intro resp s k hcond hlook
    unfold raise_for_error
    rw [if_neg hcond, hlook]
    simp only [Option.getD_some]
    rw [if_neg (lookupErrorCode_ne_apiError _ _ hlook)]
  · intro resp s hcond hlook
    unfold raise_for_error
    rw [if_neg hcond, hlook]
    simp
  · intro s hs
    unfold status_fallback
    rw [if_neg (by omega), if_neg (by omega), if_neg (by omega), if_neg (by omega), if_pos hs]

/-- Witness for claim C6: a recognized code at status 400, an unrecognized
code at status 404, and the server-error fallback at 503. -/
theorem claim_C6_witness :
    raise_for_error [("code", JVal.jstr "INSUFFICIENT_BALANCE")] 400 =
      some ExcKind.insufficientBalanceError ∧
    raise_for_error [("code", JVal.jstr "MYSTERY_CODE")] 404 =
      some (status_fallback 404) ∧
    status_fallback 503 = ExcKind.serverError := by
  obtain ⟨h1, h2, _, _, _, _, _, h500, _⟩ := claim_C6
  exact ⟨h1 _ 400 _ (by decide) (by decide), h2 _ 404 (by decide) (by decide),
    h500 503 (by omega)⟩

/-- Claim C7 (confirmed). When both a symbol and a legacy asset id are
supplied (the symbol being non-empty, hence truthy), the symbol is the
resolved trading identifier; when neither is supplied (or both are falsy),
order creation fails with the resolve_identifier validation message before
issuing any network request (the request list of the flow is empty), and
that message names both accepted parameter forms. -/
theorem claim_C7 :
    (∀ (s : String) (a : Option String), s ≠ "" →
        resolve_identifier (some s) a = .ok (s, true)) ∧
    (∀ (symbol asset_id side quantity : Option String) (fo : FetchOutcome),
        strTruthy symbol = false → strTruthy asset_id = false →
        create_market_order_flow symbol asset_id side quantity fo =
          (.error resolve_identifier_msg, [])) ∧
    containsSub resolve_identifier_msg "symbol" = true ∧
    containsSub resolve_identifier_msg "asset_id" = true := by
  refine ⟨?_, ?_, by decide, by decide⟩
  · intro s a hs
    simp [resolve_identifier, strTruthy, hs]
  · intro symbol asset_id side quantity fo hsym hassid
    simp [create_market_order_flow, resolve_identifier, hsym, hassid]

/-- Witness for claim C7: with both BTCUSDT and a legacy id supplied the
symbol wins, and with neither supplied the flow fails with the validation
message and issues no request. -/
theorem claim_C7_witness :
    resolve_identifier (some "BTCUSDT") (some "01903a7b") = Except.ok ("BTCUSDT", true) ∧
    create_market_order_flow none none (some "LONG") (some "1") FetchOutcome.ok =
      (Except.error resolve_identifier_msg, []) :=
  ⟨claim_C7.1 "BTCUSDT" (some "01903a7b") (by decide),
   claim_C7.2.1 none none (some "LONG") (some "1") FetchOutcome.ok rfl rfl⟩

theorem extract_risk_price_nested (data : List (String × JVal))
    (fields : List (String × JVal)) (nk fk : String)
    (h : dget data nk = some (.jobj fields)) :
    extract_risk_price data nk fk = dgetD fields "price" .jnull := by
  unfold extract_risk_price
  unfold dgetD
  rw [h]

theorem extract_risk_price_flat (data : List (String × JVal)) (nk fk : String)
    (h : ∀ fields, dget data nk ≠ some (.jobj fields)) :
    extract_risk_price data nk fk = dgetD data fk .jnull := by
  unfold extract_risk_price
  cases hv : dgetD data nk .jnull with
  | jobj fields =>
    exfalso
    unfold dgetD at hv
    cases hd : dget data nk with
    | none => rw [hd] at hv; exact JVal.noConfusion hv
    | some v =>
      rw [hd] at hv
      simp only at hv
      exact h fields (by rw [hd, hv])
  | jstr s => rfl
  | jnum q => rfl
  | jbool b => rfl
  | jnull => rfl
  | jarr l => rfl

/-- Claim C8 (confirmed). Position.from_dict takes the stop-loss and
take-profit prices from the extraction rule that prefers the nested
dictionary under stoploss/takeprofit (its price field, even when the flat
key is also present) and falls back on the flat stoploss_price /
takeprofit_price key when no nested dictionary is present; on the example
payloads, the nested form parses prices 4100 and 5000 and the flat form
parses 101000. -/
theorem claim_C8 :
    (∀ (data : List (String × JVal)) (p : Position), Position.from_dict data = .ok p →
        p.stoploss_price = extract_risk_price data "stoploss" "stoploss_price" ∧
        p.takeprofit_price = extract_risk_price data "takeprofit" "takeprofit_price") ∧
    (∀ (data fields : List (String × JVal)) (nk fk : String),
        dget data nk = some (.jobj fields) →
        extract_risk_price data nk fk = dgetD fields "price" .jnull) ∧
    (∀ (data : List (String × JVal)) (nk fk : String),
        (∀ fields, dget data nk ≠ some (.jobj fields)) →
        extract_risk_price data nk fk = dgetD data fk .jnull) ∧
    (Position.from_dict nested_payload).map Position.stoploss_price = .ok (.jstr "4100") ∧
    (Position.from_dict nested_payload).map Position.takeprofit_price = .ok (.jstr "5000") ∧
    (Position.from_dict flat_payload).map Position.stoploss_price = .ok (.jstr "101000") ∧
    (Position.from_dict both_payload).map Position.stoploss_price = .ok (.jstr "4100") := by
  refine ⟨?_, extract_risk_price_nested, extract_risk_price_flat, rfl, rfl, rfl, rfl⟩
  intro data p h
  unfold Position.from_dict at h
  split at h
  · cases h
    exact ⟨rfl, rfl⟩
  · cases h
  · cases h

/-- Witness for claim C8: on the payload carrying both the nested and the
flat stop-loss form, the parsed position takes the nested price 4100. -/
theorem claim_C8_witness :
    both_position.stoploss_price = JVal.jstr "4100" := by
  have h1 := (claim_C8.1 both_payload both_position rfl).1
  have h2 := claim_C8.2.1 both_payload [("price", JVal.jstr "4100")] "stoploss" "stoploss_price" rfl
  rw [h1, h2]
  rfl

/-- Claim C9 (corrected). Order.from_dict copies the quantity and the
filled quantity verbatim from the payload (after the quantity/size and
filled_quantity/filled_size normalization), without enforcing any relation
between them, so filled_quantity is at most quantity exactly when the
payload provides values satisfying that; fill_percentage is a property
computed on demand from the stored quantity and filled_quantity fields
alone, never a stored field. -/
theorem claim_C9 :
    (∀ (data : List (String × JVal)) (o : Order), Order.from_dict data = .ok o →
        o.quantity = normalize_quantity data ∧
        o.filled_quantity = normalize_filled_quantity data) ∧
    (∀ o o2 : Order, o.quantity = o2.quantity → o.filled_quantity = o2.filled_quantity →
        o.fill_percentage = o2.fill_percentage) := by
  constructor
  · intro data o h
    unfold Order.from_dict at h
    split at h
    · cases h
      exact ⟨rfl, rfl⟩
    · cases h
    · cases h
    · cases h
  · intro o o2 h1 h2
    unfold Order.fill_percentage
    rw [h1, h2]

/-- Claim C9 counterexample: the payload with quantity "1" and filled
quantity "2" produces an Order whose two fields parse as 1 and 2, and 2 is
not at most 1, so the claimed invariant fails on a produced record. -/
theorem claim_C9_counterexample :
    (Order.from_dict overfilled_payload).map
        (fun o => (pyFloat o.quantity, pyFloat o.filled_quantity)) =
      .ok (some 1, some 2) ∧
    ¬ ((2 : ℚ) ≤ 1) := by
  constructor
  · with_unfolding_all rfl
  · norm_num

/-- Witness for claim C9: the order parsed from the size-terminology
payload carries quantity 0.5 and filled quantity 0.1 verbatim, and two
orders agreeing on those two fields have the same fill percentage. -/
theorem claim_C9_witness :
    (sizeOrder.quantity = normalize_quantity size_payload ∧
      sizeOrder.filled_quantity = normalize_filled_quantity size_payload) ∧
    orderA.fill_percentage = orderB.fill_percentage :=
  ⟨claim_C9.1 size_payload sizeOrder rfl, claim_C9.2 orderA orderB rfl rfl⟩

end Mudrex
